import Mathlib

/-!
# A shallow embedding of the order-service order lifecycle

This file embeds, in Lean 4, the order lifecycle core of
`src/app/order-service/src/main.py` (FastAPI, in-memory `orders_db`):

* the data model (`OrderItem`, `OrderCreate`, `Order`) and the in-memory
  store `orders_db : Dict[str, dict]`, modelled as an association list;
* the identity helper `get_user_id` (the `X-User-ID` header, and the
  `Authorization: Bearer` fallback with JWT decoding);
* the API handlers `create_order`, `get_order`, `update_order_status`,
  `cancel_order`;
* the background lifecycle processor `process_order` (three guarded
  transitions to PROCESSING / SHIPPING / DELIVERED) and
  `delete_order_after_delay`.

Modelling conventions:
* Python `float` money amounts are modelled as `ℚ`;
* ISO timestamp strings produced by `datetime.now().isoformat()` are
  modelled as abstract clock values `Nat`, supplied as an explicit `now`
  argument at each point where the Python code reads the clock;
* `jwt.decode(tok, SECRET_KEY, algorithms=[ALGORITHM])` followed by
  `payload.get("sub")` is modelled by an abstract function
  `jwtSub : String → Option String`: `none` stands for a decode error
  (the `JWTError` branch) or an absent `sub` claim, `some s` for a
  successful decode whose `sub` claim is `s` (possibly the empty string,
  which Python's truthiness test `if username:` treats as absent);
* `HTTPException(status_code=..., detail=...)` is a record, and handlers
  that can raise return `Except HTTPException _`; raising before any
  store mutation leaves the store unchanged, which the embedding renders
  by not returning a new store on the error path;
* the asynchronous interleaving of the lifecycle coroutine with API
  calls is modelled by an explicit event/step system further below.
-/

deriving instance DecidableEq for Except

namespace OrderService

/-- `HTTPException(status_code, detail)` as raised by the handlers. -/
structure HTTPException where
  status_code : Nat
  detail : String
deriving DecidableEq, Repr

/-- A line item, Pydantic model `OrderItem` (price is a Python float,
modelled as `ℚ`). -/
structure OrderItem where
  product_id : String
  name : String
  price : ℚ
  quantity : Nat
deriving DecidableEq, Repr

/-- The request body of `POST /orders/`, Pydantic model `OrderCreate`. -/
structure OrderCreate where
  items : List OrderItem
  total : ℚ
deriving DecidableEq, Repr

/-- A stored order, the dict built in `create_order`
(`id`, `user_id`, `items`, `total`, `status`, `created_at`, `updated_at`).
`status` is kept as a `String`, exactly as in the source, so that the
claim that only the five recognised values are ever stored is a real
statement. -/
structure Order where
  id : String
  user_id : String
  items : List OrderItem
  total : ℚ
  status : String
  created_at : Nat
  updated_at : Nat
deriving DecidableEq, Repr

/-- The keys of the `ORDER_STATUSES` dict (the five recognised status
codes; the Russian display labels are irrelevant to the claims). -/
def ORDER_STATUS_KEYS : List String :=
  ["CREATED", "PROCESSING", "SHIPPING", "DELIVERED", "CANCELLED"]

/-- The in-memory store `orders_db : Dict[str, Dict[str, Any]]`,
modelled as an association list from order id to order. -/
abbrev OrdersDb := List (String × Order)

/-- `orders_db[order_id]` / `orders_db.get(order_id)`: first binding of
the key, if any. -/
def dbGet : OrdersDb → String → Option Order
  | [], _ => none
  | (k, o) :: rest, i => if k = i then some o else dbGet rest i

/-- `del orders_db[order_id]`: remove every binding of the key. -/
def dbDel : OrdersDb → String → OrdersDb
  | [], _ => []
  | (k, o) :: rest, i => if k = i then dbDel rest i else (k, o) :: dbDel rest i

/-- `orders_db[order_id] = o`: bind the key, replacing any old binding. -/
def dbSet (db : OrdersDb) (i : String) (o : Order) : OrdersDb :=
  (i, o) :: dbDel db i

/-- `order_id in orders_db`. -/
def dbMember (db : OrdersDb) (i : String) : Bool :=
  (dbGet db i).isSome

/-- Python's `s.count(c)` for a single character. -/
def strCount (s : String) (c : Char) : Nat :=
  s.toList.count c

/-- Helper for `pySplitWs`: walk the characters, accumulating the
current word reversed. -/
def pySplitWsAux : List Char → List Char → List String
  | [], cur => if cur = [] then [] else [⟨cur.reverse⟩]
  | c :: cs, cur =>
    if c.isWhitespace then
      if cur = [] then pySplitWsAux cs []
      else (⟨cur.reverse⟩ : String) :: pySplitWsAux cs []
    else pySplitWsAux cs (c :: cur)

/-- Python's `s.split()` with no argument: split on runs of whitespace,
producing no empty parts. -/
def pySplitWs (s : String) : List String :=
  pySplitWsAux s.toList []

/-- Python's `s.lower()`, character by character. -/
def pyLower (s : String) : String :=
  ⟨s.toList.map Char.toLower⟩

/-- The `Authorization` fallback inside `get_user_id` (source lines
97-119): missing header → 401; not a two-part `Bearer` header → 401;
otherwise decode the token — a truthy `sub` claim is returned, and on a
decode error or a falsy `sub` the raw token itself is returned. Python's
`authorization.split()` splits on whitespace runs (`pySplitWs`). -/
def get_user_id_from_authorization (jwtSub : String → Option String)
    (authorization : Option String) : Except HTTPException String :=
  match authorization with
  | none => .error ⟨401, "Authorization header missing"⟩
  | some a =>
    match pySplitWs a with
    | [scheme, token] =>
      if pyLower scheme = "bearer" then
        match jwtSub token with
        | some username => if ¬username.isEmpty then .ok username else .ok token
        | none => .ok token
      else .error ⟨401, "Invalid authorization header"⟩
    | _ => .error ⟨401, "Invalid authorization header"⟩

/-- `get_user_id` (source lines 92-119): a truthy `X-User-ID` header is
returned verbatim; a header that is absent (`None`) or empty (falsy in
Python) falls through to the `Authorization` path. -/
def get_user_id (jwtSub : String → Option String)
    (authorization x_user_id : Option String) : Except HTTPException String :=
  match x_user_id with
  | some x =>
    if ¬x.isEmpty then .ok x
    else get_user_id_from_authorization jwtSub authorization
  | none => get_user_id_from_authorization jwtSub authorization

/-- The JWT re-decoding block inside `create_order` (source lines
249-258): when the resolved `user_id` contains exactly two dots it is
tried as a JWT; a truthy `sub` claim replaces it, and any exception or a
falsy `sub` leaves it unchanged. -/
def create_order_user_id (jwtSub : String → Option String)
    (user_id : String) : String :=
  if strCount user_id '.' = 2 then
    match jwtSub user_id with
    | some username => if ¬username.isEmpty then username else user_id
    | none => user_id
  else user_id

/-- `create_order` (source lines 239-273), with the generated
`uuid.uuid4()` and `datetime.now()` supplied as arguments. There is no
validation of the request body: the new order is always inserted with
status `CREATED`, `items` and `total` copied from the request, and
returned. Spawning `process_order` is modelled by the step system below. -/
def create_order (jwtSub : String → Option String) (db : OrdersDb)
    (order_id : String) (now : Nat) (user_id : String)
    (order : OrderCreate) : OrdersDb × Order :=
  let uid := create_order_user_id jwtSub user_id
  let new_order : Order :=
    { id := order_id, user_id := uid, items := order.items,
      total := order.total, status := "CREATED",
      created_at := now, updated_at := now }
  (dbSet db order_id new_order, new_order)

/-- `get_order` (source lines 275-291): 404 when the id is absent —
checked before anything else — then 403 when the requester is neither
the owner nor an admin, else the order. -/
def get_order (db : OrdersDb) (order_id user_id : String)
    (admin : Bool) : Except HTTPException Order :=
  match dbGet db order_id with
  | none => .error ⟨404, "Order not found"⟩
  | some order =>
    if order.user_id ≠ user_id ∧ admin = false then
      .error ⟨403, "Access denied"⟩
    else .ok order

/-- `update_order_status` (source lines 293-317), the administrative
override: non-admin → 403, absent id → 404, status not among the five
keys of `ORDER_STATUSES` → 400; otherwise the status is overwritten with
no transition-graph validation and `updated_at` refreshed. -/
def update_order_status (db : OrdersDb) (order_id status : String)
    (admin : Bool) (now : Nat) : Except HTTPException OrdersDb :=
  if admin = false then .error ⟨403, "Admin access required"⟩
  else match dbGet db order_id with
  | none => .error ⟨404, "Order not found"⟩
  | some order =>
    if status ∉ ORDER_STATUS_KEYS then
      .error ⟨400, "Invalid status. Available statuses: CREATED, PROCESSING, SHIPPING, DELIVERED, CANCELLED"⟩
    else
      .ok (dbSet db order_id { order with status := status, updated_at := now })

/-- `cancel_order` (source lines 319-347): 404 when the id is absent —
checked before ownership — then 403 for a non-owner non-admin, then 400
naming the current status when it is `DELIVERED` or `CANCELLED`;
otherwise the status becomes `CANCELLED` and `updated_at` is refreshed.
On success the handler also fires a best-effort `CANCELLED`
notification, recorded by the step system below. -/
def cancel_order (db : OrdersDb) (order_id user_id : String)
    (admin : Bool) (now : Nat) : Except HTTPException (OrdersDb × Order) :=
  match dbGet db order_id with
  | none => .error ⟨404, "Order not found"⟩
  | some order =>
    if order.user_id ≠ user_id ∧ admin = false then
      .error ⟨403, "Access denied"⟩
    else if order.status = "DELIVERED" ∨ order.status = "CANCELLED" then
      .error ⟨400, "Cannot cancel order with status " ++ order.status⟩
    else
      let upd : Order := { order with status := "CANCELLED", updated_at := now }
      .ok (dbSet db order_id upd, upd)

/-- One guarded transition block of `process_order` (the pattern at
source lines 134-141, 143-149 and 155-175): if the order is still in the
store and its status is not `CANCELLED`, write the new status and a
fresh `updated_at`; otherwise leave the store unchanged. The boolean
reports whether the write (and hence the notification, and for
`DELIVERED` the scheduling of the deferred deletion) happened. -/
def process_order_transition (db : OrdersDb) (order_id new_status : String)
    (now : Nat) : OrdersDb × Bool :=
  match dbGet db order_id with
  | some order =>
    if order.status ≠ "CANCELLED" then
      (dbSet db order_id { order with status := new_status, updated_at := now }, true)
    else (db, false)
  | none => (db, false)

/-- `delete_order_after_delay` (source lines 177-186): once the delay
has elapsed, delete the order if it is still present — the only check
performed is presence; the current status is not consulted. -/
def delete_order_after_delay (db : OrdersDb) (order_id : String) : OrdersDb :=
  if dbMember db order_id then dbDel db order_id else db

/-- The spec's formula for an order total (§3: "computed at creation
time from `items`"): the sum over the items of unit price times
quantity. Stated from the spec's words, to compare with what
`create_order` actually stores. -/
def spec_items_total (items : List OrderItem) : ℚ :=
  (items.map (fun it => it.price * (it.quantity : ℚ))).sum

/-! ## A step system for one order's lifecycle

`process_order` is a coroutine that sleeps, then runs a guarded
transition, three times (PROCESSING, SHIPPING, DELIVERED), and on a
successful DELIVERED write schedules `delete_order_after_delay`.
Concurrently the API layer may run `cancel_order` or
`update_order_status` on the same order. The suspension points are only
the sleeps (spec §5), so an interleaving is a sequence of atomic events:
the three processor blocks in program order (the coroutine reaches each
block exactly once, whether or not its guard fires), the deferred
deletion once scheduled, and any number of API calls in between. -/

/-- Program counter of the `process_order` coroutine for one order:
`p0` = before the first block, `p1` = between the first and second,
`p2` = between the second and third, `p3` = after the third. -/
inductive PC where
  | p0 | p1 | p2 | p3
deriving DecidableEq, Repr

/-- State of the system as seen by one order: the store, the coroutine's
program counter, whether a `delete_order_after_delay` task is scheduled
and has not yet fired, and the log of statuses for which
`notify_user_service` was invoked for this order. -/
structure Sys where
  db : OrdersDb
  pc : PC
  pending_delete : Bool
  notified : List String
deriving DecidableEq, Repr

/-- An atomic event touching the tracked order: one of the three
processor blocks (with the clock value at which it runs), the deferred
deletion, a `PUT /orders/{id}/cancel` call, or an administrative
`PUT /orders/{id}/status` call. -/
inductive Ev where
  | proc1 (now : Nat)
  | proc2 (now : Nat)
  | proc3 (now : Nat)
  | del
  | cancel (user_id : String) (admin : Bool) (now : Nat)
  | setStatus (status : String) (admin : Bool) (now : Nat)
deriving DecidableEq, Repr

/-- Whether an event is the administrative `SetStatus` override. -/
def Ev.isSetStatus : Ev → Bool
  | .setStatus _ _ _ => true
  | _ => false

/-- The `process_order` block that attempts the transition to
`new_status`, as it affects `Sys`: run `process_order_transition`,
append to the notification log exactly when the write fired, move the
program counter forward, and for a fired `DELIVERED` write mark the
deferred deletion as scheduled. -/
def procBlock (oid : String) (s : Sys) (new_status : String) (now : Nat)
    (next : PC) : Sys :=
  let (db', fired) := process_order_transition s.db oid new_status now
  { db := db', pc := next,
    pending_delete := if fired ∧ new_status = "DELIVERED" then true else s.pending_delete,
    notified := if fired then s.notified ++ [new_status] else s.notified }

/-- One atomic event applied to the state. Processor blocks run only
when the coroutine is at the corresponding program point (each runs
exactly once, in program order); the deferred deletion runs only when
scheduled, and fires once; a failed API call (`HTTPException`) leaves
the store untouched; a successful cancel logs its best-effort
`CANCELLED` notification and a successful status override logs the
notification `update_order_status` schedules. -/
def stepEv (oid : String) (s : Sys) : Ev → Sys
  | .proc1 now => if s.pc = .p0 then procBlock oid s "PROCESSING" now .p1 else s
  | .proc2 now => if s.pc = .p1 then procBlock oid s "SHIPPING" now .p2 else s
  | .proc3 now => if s.pc = .p2 then procBlock oid s "DELIVERED" now .p3 else s
  | .del =>
    if s.pending_delete then
      { s with db := delete_order_after_delay s.db oid, pending_delete := false }
    else s
  | .cancel uid admin now =>
    match cancel_order s.db oid uid admin now with
    | .ok (db', _) => { s with db := db', notified := s.notified ++ ["CANCELLED"] }
    | .error _ => s
  | .setStatus st admin now =>
    match update_order_status s.db oid st admin now with
    | .ok db' => { s with db := db', notified := s.notified ++ [st] }
    | .error _ => s

/-- Run a sequence of events. -/
def runEv (oid : String) (s : Sys) (evs : List Ev) : Sys :=
  evs.foldl (stepEv oid) s

/-- The state right after `create_order` returned and its
`process_order` background task was spawned: the new order is in the
store (over an arbitrary ambient store `db0` of other orders), the
coroutine is at its first block, no deletion is scheduled, and nothing
has been notified. -/
def initSys (jwtSub : String → Option String) (db0 : OrdersDb)
    (oid : String) (now : Nat) (user_id : String) (req : OrderCreate) : Sys :=
  { db := (create_order jwtSub db0 oid now user_id req).1,
    pc := .p0, pending_delete := false, notified := [] }

/-- The tracked order's stored status, if present. -/
def trackedStatus (oid : String) (s : Sys) : Option String :=
  (dbGet s.db oid).map Order.status

/-! ## A global step system over the whole store

For the store-wide invariant (every stored status is recognised) the
events may target any order id, and no ordering between them needs to
be enforced: this over-approximates the reachable stores. -/

/-- A store-level event: any handler or processor block, on any id. -/
inductive GEv where
  | create (jwtSub : String → Option String) (oid : String) (now : Nat)
      (user_id : String) (req : OrderCreate)
  | procTrans (oid new_status : String) (now : Nat)
  | cancel (oid user_id : String) (admin : Bool) (now : Nat)
  | setStatus (oid status : String) (admin : Bool) (now : Nat)
  | del (oid : String)

/-- The statuses `process_order` ever writes are the three literals
`PROCESSING`, `SHIPPING`, `DELIVERED`; a processor event with any other
status does not occur in the program and is a no-op here. -/
def GEv.procStatuses : List String := ["PROCESSING", "SHIPPING", "DELIVERED"]

/-- Apply a store-level event to the store; a failed handler leaves the
store unchanged. -/
def applyGEv (db : OrdersDb) : GEv → OrdersDb
  | .create jwtSub oid now uid req => (create_order jwtSub db oid now uid req).1
  | .procTrans oid st now =>
    if st ∈ GEv.procStatuses then (process_order_transition db oid st now).1 else db
  | .cancel oid uid admin now =>
    match cancel_order db oid uid admin now with
    | .ok (db', _) => db'
    | .error _ => db
  | .setStatus oid st admin now =>
    match update_order_status db oid st admin now with
    | .ok db' => db'
    | .error _ => db
  | .del oid => delete_order_after_delay db oid

/-- Run store-level events from a store. -/
def runGEv (db : OrdersDb) (evs : List GEv) : OrdersDb :=
  evs.foldl applyGEv db

/-! ## Store lemmas -/

theorem dbGet_dbDel_self (db : OrdersDb) (i : String) :
    dbGet (dbDel db i) i = none := by
  induction db with
  | nil => rfl
  | cons p rest ih =>
    obtain ⟨k, o⟩ := p
    by_cases h : k = i
    · simpa [dbDel, h] using ih
    · simpa [dbDel, dbGet, h] using ih

theorem dbGet_dbDel_ne (db : OrdersDb) (i j : String) (h : i ≠ j) :
    dbGet (dbDel db i) j = dbGet db j := by
  induction db with
  | nil => rfl
  | cons p rest ih =>
    obtain ⟨k, o⟩ := p
    by_cases hk : k = i
    · subst hk
      simpa [dbDel, dbGet, h] using ih
    · by_cases hj : k = j
      · subst hj
        simp [dbDel, dbGet, hk]
      · simpa [dbDel, dbGet, hk, hj] using ih

theorem dbGet_dbSet_self (db : OrdersDb) (i : String) (o : Order) :
    dbGet (dbSet db i o) i = some o := by
  simp [dbSet, dbGet]

theorem dbGet_dbSet_ne (db : OrdersDb) (i j : String) (o : Order) (h : i ≠ j) :
    dbGet (dbSet db i o) j = dbGet db j := by
  simp only [dbSet, dbGet, if_neg h]
  exact dbGet_dbDel_ne db i j h

theorem mem_dbDel (db : OrdersDb) (i : String) (p : String × Order) :
    p ∈ dbDel db i → p ∈ db := by
  induction db with
  | nil => simp [dbDel]
  | cons q rest ih =>
    obtain ⟨k, o⟩ := q
    by_cases hk : k = i
    · simp only [dbDel, if_pos hk]
      intro h
      exact List.mem_cons_of_mem _ (ih h)
    · simp only [dbDel, if_neg hk, List.mem_cons]
      rintro (h | h)
      · exact Or.inl h
      · exact Or.inr (ih h)

theorem mem_dbSet (db : OrdersDb) (i : String) (o : Order) (p : String × Order) :
    p ∈ dbSet db i o → p = (i, o) ∨ p ∈ db := by
  intro h
  rcases List.mem_cons.mp h with h | h
  · exact Or.inl h
  · exact Or.inr (mem_dbDel db i _ h)

/-! ## Characterisations of the handlers and processor blocks -/

theorem process_order_transition_absent {db : OrdersDb} {oid : String}
    (st : String) (now : Nat) (h : dbGet db oid = none) :
    process_order_transition db oid st now = (db, false) := by
  simp [process_order_transition, h]

theorem process_order_transition_cancelled {db : OrdersDb} {oid : String} {o : Order}
    (st : String) (now : Nat) (h : dbGet db oid = some o)
    (hc : o.status = "CANCELLED") :
    process_order_transition db oid st now = (db, false) := by
  simp [process_order_transition, h, hc]

theorem process_order_transition_fires {db : OrdersDb} {oid : String} {o : Order}
    (st : String) (now : Nat) (h : dbGet db oid = some o)
    (hc : o.status ≠ "CANCELLED") :
    process_order_transition db oid st now =
      (dbSet db oid { o with status := st, updated_at := now }, true) := by
  simp [process_order_transition, h, hc]

theorem cancel_order_absent {db : OrdersDb} {oid : String}
    (uid : String) (adm : Bool) (now : Nat) (h : dbGet db oid = none) :
    cancel_order db oid uid adm now = .error ⟨404, "Order not found"⟩ := by
  simp [cancel_order, h]

theorem cancel_order_denied {db : OrdersDb} {oid : String} {o : Order}
    (uid : String) (adm : Bool) (now : Nat) (h : dbGet db oid = some o)
    (hd : o.user_id ≠ uid ∧ adm = false) :
    cancel_order db oid uid adm now = .error ⟨403, "Access denied"⟩ := by
  simp [cancel_order, h, hd.1, hd.2]

theorem cancel_order_terminal {db : OrdersDb} {oid : String} {o : Order}
    (uid : String) (adm : Bool) (now : Nat) (h : dbGet db oid = some o)
    (hd : ¬(o.user_id ≠ uid ∧ adm = false))
    (ht : o.status = "DELIVERED" ∨ o.status = "CANCELLED") :
    cancel_order db oid uid adm now =
      .error ⟨400, "Cannot cancel order with status " ++ o.status⟩ := by
  simp [cancel_order, h, hd, ht]

theorem cancel_order_ok {db : OrdersDb} {oid : String} {o : Order}
    (uid : String) (adm : Bool) (now : Nat) (h : dbGet db oid = some o)
    (hd : ¬(o.user_id ≠ uid ∧ adm = false))
    (ht : ¬(o.status = "DELIVERED" ∨ o.status = "CANCELLED")) :
    cancel_order db oid uid adm now =
      .ok (dbSet db oid { o with status := "CANCELLED", updated_at := now },
           { o with status := "CANCELLED", updated_at := now }) := by
  simp [cancel_order, h, hd, ht]

/-! ## The lifecycle invariant

Relates the coroutine's program counter to the tracked order's status,
for runs without the administrative `SetStatus` override: before block
`k` the status is exactly the `k`-th happy-path status unless a
cancellation has interrupted, and a deferred deletion is scheduled only
after a `DELIVERED` write whose result still stands. -/

/-- The invariant tying `pc`, the stored status and the deletion flag. -/
def Inv (oid : String) (s : Sys) : Prop :=
  (s.pc = .p0 → trackedStatus oid s = some "CREATED" ∨ trackedStatus oid s = some "CANCELLED") ∧
  (s.pc = .p1 → trackedStatus oid s = some "PROCESSING" ∨ trackedStatus oid s = some "CANCELLED") ∧
  (s.pc = .p2 → trackedStatus oid s = some "SHIPPING" ∨ trackedStatus oid s = some "CANCELLED") ∧
  (s.pc = .p3 → trackedStatus oid s = some "DELIVERED" ∨ trackedStatus oid s = some "CANCELLED" ∨ trackedStatus oid s = none) ∧
  (s.pending_delete = true → s.pc = .p3 ∧ trackedStatus oid s = some "DELIVERED")

theorem Inv_init (jwtSub : String → Option String) (db0 : OrdersDb)
    (oid : String) (now : Nat) (uid : String) (req : OrderCreate) :
    Inv oid (initSys jwtSub db0 oid now uid req) := by
  refine ⟨fun _ => Or.inl ?_, fun h => by simp [initSys] at h,
    fun h => by simp [initSys] at h, fun h => by simp [initSys] at h,
    fun h => by simp [initSys] at h⟩
  simp [initSys, trackedStatus, create_order, dbGet_dbSet_self]

theorem trackedStatus_eq_some {oid : String} {s : Sys} {st : String} :
    trackedStatus oid s = some st ↔
      ∃ o, dbGet s.db oid = some o ∧ o.status = st := by
  simp [trackedStatus, Option.map_eq_some']

/-- Every event other than the administrative `SetStatus` override
preserves the lifecycle invariant. -/
theorem Inv_step (oid : String) (s : Sys) (e : Ev) (hInv : Inv oid s)
    (hns : e.isSetStatus = false) : Inv oid (stepEv oid s e) := by
  obtain ⟨h0, h1, h2, h3, hpd⟩ := hInv
  cases e with
  | proc1 now =>
    by_cases hpc : s.pc = .p0
    · rcases h0 hpc with hst | hst
      · obtain ⟨o, ho, hos⟩ := trackedStatus_eq_some.mp hst
        have hfire := process_order_transition_fires "PROCESSING" now ho
          (by rw [hos]; decide)
        refine ⟨?_, ?_, ?_, ?_, ?_⟩ <;>
          simp [stepEv, hpc, procBlock, hfire, trackedStatus, dbGet_dbSet_self]
        cases hv : s.pending_delete
        · rfl
        · exact absurd (hpd hv).1 (by rw [hpc]; decide)
      · obtain ⟨o, ho, hos⟩ := trackedStatus_eq_some.mp hst
        have hskip := process_order_transition_cancelled "PROCESSING" now ho hos
        refine ⟨?_, ?_, ?_, ?_, ?_⟩ <;>
          simp [stepEv, hpc, procBlock, hskip, trackedStatus, ho, hos]
        cases hv : s.pending_delete
        · rfl
        · exact absurd (hpd hv).1 (by rw [hpc]; decide)
    · simpa [stepEv, hpc] using ⟨h0, h1, h2, h3, hpd⟩
  | proc2 now =>
    by_cases hpc : s.pc = .p1
    · rcases h1 hpc with hst | hst
      · obtain ⟨o, ho, hos⟩ := trackedStatus_eq_some.mp hst
        have hfire := process_order_transition_fires "SHIPPING" now ho
          (by rw [hos]; decide)
        refine ⟨?_, ?_, ?_, ?_, ?_⟩ <;>
          simp [stepEv, hpc, procBlock, hfire, trackedStatus, dbGet_dbSet_self]
        cases hv : s.pending_delete
        · rfl
        · exact absurd (hpd hv).1 (by rw [hpc]; decide)
      · obtain ⟨o, ho, hos⟩ := trackedStatus_eq_some.mp hst
        have hskip := process_order_transition_cancelled "SHIPPING" now ho hos
        refine ⟨?_, ?_, ?_, ?_, ?_⟩ <;>
          simp [stepEv, hpc, procBlock, hskip, trackedStatus, ho, hos]
        cases hv : s.pending_delete
        · rfl
        · exact absurd (hpd hv).1 (by rw [hpc]; decide)
    · simpa [stepEv, hpc] using ⟨h0, h1, h2, h3, hpd⟩
  | proc3 now =>
    by_cases hpc : s.pc = .p2
    · rcases h2 hpc with hst | hst
      · obtain ⟨o, ho, hos⟩ := trackedStatus_eq_some.mp hst
        have hfire := process_order_transition_fires "DELIVERED" now ho
          (by rw [hos]; decide)
        refine ⟨?_, ?_, ?_, ?_, ?_⟩ <;>
          simp [stepEv, hpc, procBlock, hfire, trackedStatus, dbGet_dbSet_self]
      · obtain ⟨o, ho, hos⟩ := trackedStatus_eq_some.mp hst
        have hskip := process_order_transition_cancelled "DELIVERED" now ho hos
        refine ⟨?_, ?_, ?_, ?_, ?_⟩ <;>
          simp [stepEv, hpc, procBlock, hskip, trackedStatus, ho, hos]
        cases hv : s.pending_delete
        · rfl
        · exact absurd (hpd hv).1 (by rw [hpc]; decide)
    · simpa [stepEv, hpc] using ⟨h0, h1, h2, h3, hpd⟩
  | del =>
    by_cases hp : s.pending_delete = true
    · obtain ⟨hpc, hst⟩ := hpd hp
      obtain ⟨o, ho, _⟩ := trackedStatus_eq_some.mp hst
      have hmem : dbMember s.db oid = true := by simp [dbMember, ho]
      refine ⟨?_, ?_, ?_, ?_, ?_⟩ <;>
        simp [stepEv, hp, delete_order_after_delay, hmem, trackedStatus,
          dbGet_dbDel_self, hpc]
    · simpa [stepEv, hp] using ⟨h0, h1, h2, h3, hpd⟩
  | cancel uid adm now =>
    cases ho : dbGet s.db oid with
    | none =>
      simpa [stepEv, cancel_order_absent uid adm now ho] using
        ⟨h0, h1, h2, h3, hpd⟩
    | some o =>
      by_cases hd : o.user_id ≠ uid ∧ adm = false
      · simpa [stepEv, cancel_order_denied uid adm now ho hd] using
          ⟨h0, h1, h2, h3, hpd⟩
      · by_cases ht : o.status = "DELIVERED" ∨ o.status = "CANCELLED"
        · simpa [stepEv, cancel_order_terminal uid adm now ho hd ht] using
            ⟨h0, h1, h2, h3, hpd⟩
        · have hpf : s.pending_delete = false := by
            by_contra hc
            have := (hpd (by simpa using hc)).2
            obtain ⟨o', ho', hos'⟩ := trackedStatus_eq_some.mp this
            rw [ho] at ho'
            cases ho'
            exact ht (Or.inl hos')
          refine ⟨?_, ?_, ?_, ?_, ?_⟩ <;>
            simp [stepEv, cancel_order_ok uid adm now ho hd ht, trackedStatus,
              dbGet_dbSet_self, hpf]
  | setStatus st adm now =>
    simp [Ev.isSetStatus] at hns

theorem Inv_runEv (oid : String) (s : Sys) (evs : List Ev) (hInv : Inv oid s)
    (hns : ∀ e ∈ evs, e.isSetStatus = false) : Inv oid (runEv oid s evs) := by
  induction evs generalizing s with
  | nil => exact hInv
  | cons e rest ih =>
    exact ih (stepEv oid s e)
      (Inv_step oid s e hInv (hns e (List.mem_cons_self e rest)))
      (fun e' he' => hns e' (List.mem_cons_of_mem e he'))

/-- Once the tracked order is `CANCELLED`, no event other than the
administrative override changes the store, the notification log or the
deletion flag (the processor blocks and the deletion are guarded, and a
second cancel raises). -/
theorem stepEv_cancelled (oid : String) (s : Sys) (e : Ev) (hInv : Inv oid s)
    (hc : trackedStatus oid s = some "CANCELLED") (hns : e.isSetStatus = false) :
    (stepEv oid s e).db = s.db ∧ (stepEv oid s e).notified = s.notified ∧
      (stepEv oid s e).pending_delete = s.pending_delete := by
  obtain ⟨o, ho, hos⟩ := trackedStatus_eq_some.mp hc
  have hpf : s.pending_delete = false := by
    cases hv : s.pending_delete
    · rfl
    · have := (hInv.2.2.2.2 hv).2
      rw [hc] at this
      exact absurd (Option.some.inj this) (by decide)
  cases e with
  | proc1 now =>
    by_cases hpc : s.pc = .p0 <;>
      simp [stepEv, hpc, procBlock,
        process_order_transition_cancelled _ now ho hos]
  | proc2 now =>
    by_cases hpc : s.pc = .p1 <;>
      simp [stepEv, hpc, procBlock,
        process_order_transition_cancelled _ now ho hos]
  | proc3 now =>
    by_cases hpc : s.pc = .p2 <;>
      simp [stepEv, hpc, procBlock,
        process_order_transition_cancelled _ now ho hos]
  | del => simp [stepEv, hpf]
  | cancel uid adm now =>
    by_cases hd : o.user_id ≠ uid ∧ adm = false
    · simp [stepEv, cancel_order_denied uid adm now ho hd]
    · simp [stepEv, cancel_order_terminal uid adm now ho hd (Or.inr hos)]
  | setStatus st adm now =>
    simp [Ev.isSetStatus] at hns

/-- Run form of `stepEv_cancelled`: after a cancellation, any sequence
of non-override events leaves the status `CANCELLED` and adds no
notification. -/
theorem runEv_cancelled (oid : String) (s : Sys) (evs : List Ev)
    (hInv : Inv oid s) (hc : trackedStatus oid s = some "CANCELLED")
    (hns : ∀ e ∈ evs, e.isSetStatus = false) :
    trackedStatus oid (runEv oid s evs) = some "CANCELLED" ∧
      (runEv oid s evs).notified = s.notified := by
  induction evs generalizing s with
  | nil => exact ⟨hc, rfl⟩
  | cons e rest ih =>
    have he : e.isSetStatus = false := hns e (List.mem_cons_self e rest)
    obtain ⟨hdb, hlog, _⟩ := stepEv_cancelled oid s e hInv hc he
    have hc' : trackedStatus oid (stepEv oid s e) = some "CANCELLED" := by
      rw [trackedStatus, hdb]; exact hc
    have := ih (stepEv oid s e) (Inv_step oid s e hInv he) hc'
      (fun e' he' => hns e' (List.mem_cons_of_mem e he'))
    exact ⟨this.1, this.2.trans hlog⟩

/-- The case split the invariant yields on the tracked status at any
program point. -/
theorem Inv_status_cases (oid : String) (s : Sys) (hInv : Inv oid s) :
    trackedStatus oid s = some "CREATED" ∨
    trackedStatus oid s = some "PROCESSING" ∨
    trackedStatus oid s = some "SHIPPING" ∨
    trackedStatus oid s = some "DELIVERED" ∨
    trackedStatus oid s = some "CANCELLED" ∨
    trackedStatus oid s = none := by
  obtain ⟨h0, h1, h2, h3, _⟩ := hInv
  cases hpc : s.pc
  · rcases h0 hpc with h | h
    · exact Or.inl h
    · exact Or.inr (Or.inr (Or.inr (Or.inr (Or.inl h))))
  · rcases h1 hpc with h | h
    · exact Or.inr (Or.inl h)
    · exact Or.inr (Or.inr (Or.inr (Or.inr (Or.inl h))))
  · rcases h2 hpc with h | h
    · exact Or.inr (Or.inr (Or.inl h))
    · exact Or.inr (Or.inr (Or.inr (Or.inr (Or.inl h))))
  · rcases h3 hpc with h | h | h
    · exact Or.inr (Or.inr (Or.inr (Or.inl h)))
    · exact Or.inr (Or.inr (Or.inr (Or.inr (Or.inl h))))
    · exact Or.inr (Or.inr (Or.inr (Or.inr (Or.inr h))))

/-- The pairs of consecutive stored statuses the spec's state graph
allows on the automatic path: no change, one forward step along
CREATED → PROCESSING → SHIPPING → DELIVERED, a cancellation from a
non-terminal state, or the deferred removal of a delivered order. -/
def NextOK (a b : Option String) : Prop :=
  a = b ∨
  (a = some "CREATED" ∧ b = some "PROCESSING") ∨
  (a = some "PROCESSING" ∧ b = some "SHIPPING") ∨
  (a = some "SHIPPING" ∧ b = some "DELIVERED") ∨
  ((a = some "CREATED" ∨ a = some "PROCESSING" ∨ a = some "SHIPPING") ∧
    b = some "CANCELLED") ∨
  (a = some "DELIVERED" ∧ b = none)

/-- Any single non-override event moves the tracked status along the
state graph. -/
theorem stepEv_NextOK (oid : String) (s : Sys) (e : Ev) (hInv : Inv oid s)
    (hns : e.isSetStatus = false) :
    NextOK (trackedStatus oid s) (trackedStatus oid (stepEv oid s e)) := by
  obtain ⟨h0, h1, h2, h3, hpd⟩ := hInv
  cases e with
  | proc1 now =>
    by_cases hpc : s.pc = .p0
    · rcases h0 hpc with hst | hst
      · obtain ⟨o, ho, hos⟩ := trackedStatus_eq_some.mp hst
        have hfire := process_order_transition_fires "PROCESSING" now ho
          (by rw [hos]; decide)
        refine Or.inr (Or.inl ⟨hst, ?_⟩)
        simp [stepEv, hpc, procBlock, hfire, trackedStatus, dbGet_dbSet_self]
      · obtain ⟨o, ho, hos⟩ := trackedStatus_eq_some.mp hst
        have hskip := process_order_transition_cancelled "PROCESSING" now ho hos
        exact Or.inl (by simp [stepEv, hpc, procBlock, hskip, trackedStatus])
    · exact Or.inl (by simp [stepEv, hpc])
  | proc2 now =>
    by_cases hpc : s.pc = .p1
    · rcases h1 hpc with hst | hst
      · obtain ⟨o, ho, hos⟩ := trackedStatus_eq_some.mp hst
        have hfire := process_order_transition_fires "SHIPPING" now ho
          (by rw [hos]; decide)
        refine Or.inr (Or.inr (Or.inl ⟨hst, ?_⟩))
        simp [stepEv, hpc, procBlock, hfire, trackedStatus, dbGet_dbSet_self]
      · obtain ⟨o, ho, hos⟩ := trackedStatus_eq_some.mp hst
        have hskip := process_order_transition_cancelled "SHIPPING" now ho hos
        exact Or.inl (by simp [stepEv, hpc, procBlock, hskip, trackedStatus])
    · exact Or.inl (by simp [stepEv, hpc])
  | proc3 now =>
    by_cases hpc : s.pc = .p2
    · rcases h2 hpc with hst | hst
      · obtain ⟨o, ho, hos⟩ := trackedStatus_eq_some.mp hst
        have hfire := process_order_transition_fires "DELIVERED" now ho
          (by rw [hos]; decide)
        refine Or.inr (Or.inr (Or.inr (Or.inl ⟨hst, ?_⟩)))
        simp [stepEv, hpc, procBlock, hfire, trackedStatus, dbGet_dbSet_self]
      · obtain ⟨o, ho, hos⟩ := trackedStatus_eq_some.mp hst
        have hskip := process_order_transition_cancelled "DELIVERED" now ho hos
        exact Or.inl (by simp [stepEv, hpc, procBlock, hskip, trackedStatus])
    · exact Or.inl (by simp [stepEv, hpc])
  | del =>
    by_cases hp : s.pending_delete = true
    · obtain ⟨hpc, hst⟩ := hpd hp
      obtain ⟨o, ho, _⟩ := trackedStatus_eq_some.mp hst
      have hmem : dbMember s.db oid = true := by simp [dbMember, ho]
      refine Or.inr (Or.inr (Or.inr (Or.inr (Or.inr ⟨hst, ?_⟩))))
      simp [stepEv, hp, delete_order_after_delay, hmem, trackedStatus,
        dbGet_dbDel_self]
    · exact Or.inl (by simp [stepEv, hp])
  | cancel uid adm now =>
    cases ho : dbGet s.db oid with
    | none => exact Or.inl (by simp [stepEv, cancel_order_absent uid adm now ho])
    | some o =>
      by_cases hd : o.user_id ≠ uid ∧ adm = false
      · exact Or.inl (by simp [stepEv, cancel_order_denied uid adm now ho hd])
      · by_cases ht : o.status = "DELIVERED" ∨ o.status = "CANCELLED"
        · exact Or.inl
            (by simp [stepEv, cancel_order_terminal uid adm now ho hd ht])
        · have ha : trackedStatus oid s = some o.status := by
            simp [trackedStatus, ho]
          have hcases := Inv_status_cases oid s ⟨h0, h1, h2, h3, hpd⟩
          refine Or.inr (Or.inr (Or.inr (Or.inr (Or.inl ⟨?_, ?_⟩))))
          · rcases hcases with h | h | h | h | h | h
            · exact Or.inl h
            · exact Or.inr (Or.inl h)
            · exact Or.inr (Or.inr h)
            · exact absurd (Option.some.inj (ha.symm.trans h)) fun hh =>
                ht (Or.inl hh)
            · exact absurd (Option.some.inj (ha.symm.trans h)) fun hh =>
                ht (Or.inr hh)
            · exact absurd (ha.symm.trans h) (by simp)
          · simp [stepEv, cancel_order_ok uid adm now ho hd ht, trackedStatus,
              dbGet_dbSet_self]
  | setStatus st adm now =>
    simp [Ev.isSetStatus] at hns

/-! ## Inversion of the successful handler paths -/

theorem update_order_status_ok_inv {db : OrdersDb} {oid st : String}
    {adm : Bool} {now : Nat} {db' : OrdersDb}
    (h : update_order_status db oid st adm now = .ok db') :
    ∃ o, dbGet db oid = some o ∧ st ∈ ORDER_STATUS_KEYS ∧ adm = true ∧
      db' = dbSet db oid { o with status := st, updated_at := now } := by
  cases adm with
  | false => simp [update_order_status] at h
  | true =>
    cases ho : dbGet db oid with
    | none => simp [update_order_status, ho] at h
    | some o =>
      by_cases hs : st ∈ ORDER_STATUS_KEYS
      · refine ⟨o, rfl, hs, rfl, ?_⟩
        simp [update_order_status, ho, hs] at h
        exact h.symm
      · simp [update_order_status, ho, hs] at h

theorem cancel_order_ok_inv {db : OrdersDb} {oid uid : String} {adm : Bool}
    {now : Nat} {db' : OrdersDb} {o' : Order}
    (h : cancel_order db oid uid adm now = .ok (db', o')) :
    ∃ o, dbGet db oid = some o ∧
      ¬(o.status = "DELIVERED" ∨ o.status = "CANCELLED") ∧
      o' = { o with status := "CANCELLED", updated_at := now } ∧
      db' = dbSet db oid o' := by
  cases ho : dbGet db oid with
  | none => rw [cancel_order_absent uid adm now ho] at h; cases h
  | some o =>
    by_cases hd : o.user_id ≠ uid ∧ adm = false
    · rw [cancel_order_denied uid adm now ho hd] at h; cases h
    · by_cases ht : o.status = "DELIVERED" ∨ o.status = "CANCELLED"
      · rw [cancel_order_terminal uid adm now ho hd ht] at h; cases h
      · rw [cancel_order_ok uid adm now ho hd ht] at h
        obtain ⟨hdb, ho'⟩ := Prod.mk.injEq .. ▸ Except.ok.inj h
        exact ⟨o, rfl, ht, ho'.symm, by rw [← hdb, ho']⟩

/-! ## The `total` field is written once, at creation -/

/-- No event — processor block, deletion, cancellation or the
administrative override — changes the `total` field of the tracked
order. -/
theorem stepEv_total (oid : String) (s : Sys) (e : Ev) (t : ℚ)
    (h : ∀ o, dbGet s.db oid = some o → o.total = t) :
    ∀ o, dbGet (stepEv oid s e).db oid = some o → o.total = t := by
  have hproc : ∀ st now next,
      ∀ o, dbGet (procBlock oid s st now next).db oid = some o → o.total = t := by
    intro st now next o' ho'
    cases ho : dbGet s.db oid with
    | none =>
      rw [procBlock, process_order_transition_absent st now ho] at ho'
      exact h o' (ho ▸ ho')
    | some o =>
      by_cases hc : o.status = "CANCELLED"
      · rw [procBlock, process_order_transition_cancelled st now ho hc] at ho'
        exact h o' ho'
      · rw [procBlock, process_order_transition_fires st now ho hc] at ho'
        simp only [dbGet_dbSet_self] at ho'
        cases Option.some.inj ho'
        exact h o ho
  cases e with
  | proc1 now =>
    by_cases hpc : s.pc = .p0
    · simpa [stepEv, hpc] using hproc "PROCESSING" now .p1
    · simpa [stepEv, hpc] using h
  | proc2 now =>
    by_cases hpc : s.pc = .p1
    · simpa [stepEv, hpc] using hproc "SHIPPING" now .p2
    · simpa [stepEv, hpc] using h
  | proc3 now =>
    by_cases hpc : s.pc = .p2
    · simpa [stepEv, hpc] using hproc "DELIVERED" now .p3
    · simpa [stepEv, hpc] using h
  | del =>
    by_cases hp : s.pending_delete = true
    · intro o' ho'
      simp only [stepEv, hp, if_true, delete_order_after_delay] at ho'
      by_cases hm : dbMember s.db oid = true
      · rw [if_pos hm, dbGet_dbDel_self] at ho'; cases ho'
      · rw [if_neg hm] at ho'; exact h o' ho'
    · simpa [stepEv, hp] using h
  | cancel uid adm now =>
    intro o' ho'
    cases hres : cancel_order s.db oid uid adm now with
    | error err => rw [stepEv, hres] at ho'; exact h o' ho'
    | ok r =>
      obtain ⟨db2, o2⟩ := r
      obtain ⟨o, ho, _, hupd, hdb⟩ := cancel_order_ok_inv hres
      rw [stepEv, hres] at ho'
      simp only [hdb, dbGet_dbSet_self] at ho'
      cases Option.some.inj ho'
      rw [hupd]
      exact h o ho
  | setStatus st adm now =>
    intro o' ho'
    cases hres : update_order_status s.db oid st adm now with
    | error err => rw [stepEv, hres] at ho'; exact h o' ho'
    | ok db' =>
      obtain ⟨o, ho, _, _, hdb⟩ := update_order_status_ok_inv hres
      rw [stepEv, hres] at ho'
      simp only [hdb, dbGet_dbSet_self] at ho'
      cases Option.some.inj ho'
      exact h o ho

theorem runEv_total (oid : String) (s : Sys) (evs : List Ev) (t : ℚ)
    (h : ∀ o, dbGet s.db oid = some o → o.total = t) :
    ∀ o, dbGet (runEv oid s evs).db oid = some o → o.total = t := by
  induction evs generalizing s with
  | nil => exact h
  | cons e rest ih => exact ih (stepEv oid s e) (stepEv_total oid s e t h)

/-! ## Every stored status is one of the five recognised values -/

/-- All orders in a store have a recognised status. -/
def recognizedDb (db : OrdersDb) : Prop :=
  ∀ p ∈ db, p.2.status ∈ ORDER_STATUS_KEYS

theorem mem_process_order_transition (db : OrdersDb) (oid st : String)
    (now : Nat) (p : String × Order) :
    p ∈ (process_order_transition db oid st now).1 →
      p.2.status = st ∨ p ∈ db := by
  cases ho : dbGet db oid with
  | none =>
    rw [process_order_transition_absent st now ho]
    exact fun hp => Or.inr hp
  | some o =>
    by_cases hc : o.status = "CANCELLED"
    · rw [process_order_transition_cancelled st now ho hc]
      exact fun hp => Or.inr hp
    · rw [process_order_transition_fires st now ho hc]
      intro hp
      rcases mem_dbSet _ _ _ _ hp with hh | hp'
      · subst hh; exact Or.inl rfl
      · exact Or.inr hp'

/-- Preservation: no store-level event writes a status outside the five
recognised values. -/
theorem recognizedDb_applyGEv (db : OrdersDb) (e : GEv)
    (h : recognizedDb db) : recognizedDb (applyGEv db e) := by
  cases e with
  | create jwtSub oid now uid req =>
    intro p hp
    rcases mem_dbSet _ _ _ _ (by simpa [applyGEv, create_order] using hp)
        with hh | hp'
    · subst hh; simp [ORDER_STATUS_KEYS]
    · exact h p hp'
  | procTrans oid st now =>
    by_cases hst : st ∈ GEv.procStatuses
    · intro p hp
      rw [applyGEv] at hp
      rcases mem_process_order_transition db oid st now p
          (by simpa [hst] using hp) with hh | hp'
      · rw [hh]
        simp [GEv.procStatuses] at hst
        rcases hst with rfl | rfl | rfl <;> decide
      · exact h p hp'
    · simpa [applyGEv, hst] using h
  | cancel oid uid adm now =>
    intro p hp
    rw [applyGEv] at hp
    cases hres : cancel_order db oid uid adm now with
    | error err => rw [hres] at hp; exact h p hp
    | ok r =>
      obtain ⟨db2, o2⟩ := r
      obtain ⟨o, ho, _, hupd, hdb⟩ := cancel_order_ok_inv hres
      rw [hres] at hp
      rcases mem_dbSet _ _ _ _ (hdb ▸ hp) with hh | hp'
      · subst hh; simp [hupd, ORDER_STATUS_KEYS]
      · exact h p hp'
  | setStatus oid st adm now =>
    intro p hp
    rw [applyGEv] at hp
    cases hres : update_order_status db oid st adm now with
    | error err => rw [hres] at hp; exact h p hp
    | ok db' =>
      obtain ⟨o, ho, hs, _, hdb⟩ := update_order_status_ok_inv hres
      rw [hres] at hp
      rcases mem_dbSet _ _ _ _ (hdb ▸ hp) with hh | hp'
      · subst hh; exact hs
      · exact h p hp'
  | del oid =>
    intro p hp
    rw [applyGEv, delete_order_after_delay] at hp
    by_cases hm : dbMember db oid = true
    · rw [if_pos hm] at hp
      exact h p (mem_dbDel _ _ _ hp)
    · rw [if_neg hm] at hp
      exact h p hp

theorem recognizedDb_runGEv (db : OrdersDb) (evs : List GEv)
    (h : recognizedDb db) : recognizedDb (runGEv db evs) := by
  induction evs generalizing db with
  | nil => exact h
  | cons e rest ih => exact ih (applyGEv db e) (recognizedDb_applyGEv db e h)

/-! ## Concrete fixtures for witnesses and counterexamples -/

/-- A decode oracle knowing one valid token: `tok` has subject `alice`. -/
def jwtSubTok : String → Option String :=
  fun t => if t = "tok" then some "tok-subject" else none

/-- A decode oracle for which the credential `a.b.c` is a valid JWT
whose `sub` claim is the empty string (Python's `payload.get("sub")`
then yields a falsy value). -/
def jwtSubEmptySub : String → Option String :=
  fun t => if t = "a.b.c" then some "" else none

/-- A decode oracle for which the credential `a.b.c` is a valid JWT
with subject `alice`. -/
def jwtSubAlice : String → Option String :=
  fun t => if t = "a.b.c" then some "alice" else none

/-- A stored order belonging to `u2`, used as ambient store content. -/
def otherOrder : Order :=
  { id := "o2", user_id := "u2", items := [], total := 0,
    status := "CREATED", created_at := 0, updated_at := 0 }

/-- An already-cancelled stored order belonging to `u1`. -/
def cancelledOrder : Order :=
  { id := "o1", user_id := "u1", items := [], total := 5,
    status := "CANCELLED", created_at := 0, updated_at := 1 }

/-! ## The claims -/

/-- C1, counterexample. The claim says a `CreateOrder` whose `items`
list is empty fails with `InvalidOrder` and leaves the store unchanged.
`create_order` (source lines 239-273) performs no validation of `items`
at all — there is no `InvalidOrder` error anywhere in the handler — so
the empty-items request succeeds and the order is inserted: starting
from an empty store, the store afterwards contains the new order. -/
theorem C1_counterexample :
    (create_order (fun _ => none) [] "o1" 7 "u1"
        { items := [], total := 5 }).1 ≠ ([] : OrdersDb) ∧
    dbGet (create_order (fun _ => none) [] "o1" 7 "u1"
        { items := [], total := 5 }).1 "o1" =
      some { id := "o1", user_id := "u1", items := [], total := 5,
             status := "CREATED", created_at := 7, updated_at := 7 } := by
  exact ⟨by decide, by decide⟩

/-- C1, amended: `create_order` performs no validation of the request
body; every request — in particular one with an empty `items` list — is
accepted, the order is inserted into the store with status `CREATED`
and the request's `items` copied verbatim, and it is returned. -/
theorem C1_create_order_accepts_empty_items
    (jwtSub : String → Option String) (db : OrdersDb) (oid : String)
    (now : Nat) (uid : String) (req : OrderCreate) :
    dbGet (create_order jwtSub db oid now uid req).1 oid =
      some (create_order jwtSub db oid now uid req).2 ∧
    (create_order jwtSub db oid now uid req).2.status = "CREATED" ∧
    (create_order jwtSub db oid now uid req).2.items = req.items :=
  ⟨dbGet_dbSet_self db oid _, rfl, rfl⟩

/-- C2, counterexample. The claim says the deferred deletion removes the
order only if it is still present AND still `DELIVERED`, and that an
order whose status moved away from `DELIVERED` is not deleted.
`delete_order_after_delay` (source lines 177-186) checks only presence
(`if order_id in orders_db`), never the status: after the order reaches
`DELIVERED` (scheduling the deletion) and an administrator overrides the
status back to `PROCESSING`, the deletion still removes the order. -/
theorem C2_counterexample :
    trackedStatus "o1" (runEv "o1"
        (initSys (fun _ => none) [] "o1" 0 "u1" { items := [], total := 5 })
        [.proc1 1, .proc2 2, .proc3 3, .setStatus "PROCESSING" true 4]) =
      some "PROCESSING" ∧
    (runEv "o1"
        (initSys (fun _ => none) [] "o1" 0 "u1" { items := [], total := 5 })
        [.proc1 1, .proc2 2, .proc3 3, .setStatus "PROCESSING" true 4]).pending_delete =
      true ∧
    trackedStatus "o1" (runEv "o1"
        (initSys (fun _ => none) [] "o1" 0 "u1" { items := [], total := 5 })
        [.proc1 1, .proc2 2, .proc3 3, .setStatus "PROCESSING" true 4, .del]) =
      none := by
  exact ⟨by decide, by decide, by decide⟩

/-- C2, amended: when the deferred-deletion delay elapses,
`delete_order_after_delay` removes the order exactly when it is still
present, regardless of its current status (the defensive `exists` check
is the only check; the status is not consulted), and leaves every other
order untouched. -/
theorem C2_delete_checks_only_presence (db : OrdersDb) (oid : String) :
    dbGet (delete_order_after_delay db oid) oid = none ∧
    (∀ j, j ≠ oid → dbGet (delete_order_after_delay db oid) j = dbGet db j) := by
  constructor
  · rw [delete_order_after_delay]
    by_cases hm : dbMember db oid = true
    · rw [if_pos hm]; exact dbGet_dbDel_self db oid
    · rw [if_neg hm]
      have := (Option.not_isSome_iff_eq_none (o := dbGet db oid)).mp
        (by simpa [dbMember] using hm)
      exact this
  · intro j hj
    rw [delete_order_after_delay]
    by_cases hm : dbMember db oid = true
    · rw [if_pos hm]; exact dbGet_dbDel_ne db oid j (fun h => hj h.symm)
    · rw [if_neg hm]

/-- C2 witness: deleting `o1` from a store holding `o1` (status
`PROCESSING`) and `o2` removes `o1` and leaves `o2` bound. -/
theorem C2_delete_checks_only_presence_witness :
    dbGet (delete_order_after_delay
        [("o1", { id := "o1", user_id := "u1", items := [], total := 5,
                  status := "PROCESSING", created_at := 0, updated_at := 1 }),
         ("o2", otherOrder)] "o1") "o1" = none ∧
    dbGet (delete_order_after_delay
        [("o1", { id := "o1", user_id := "u1", items := [], total := 5,
                  status := "PROCESSING", created_at := 0, updated_at := 1 }),
         ("o2", otherOrder)] "o1") "o2" =
      dbGet [("o1", { id := "o1", user_id := "u1", items := [], total := 5,
                      status := "PROCESSING", created_at := 0, updated_at := 1 }),
             ("o2", otherOrder)] "o2" :=
  ⟨(C2_delete_checks_only_presence _ "o1").1,
   (C2_delete_checks_only_presence _ "o1").2 "o2" (by decide)⟩

/-- C3, counterexample. The claim says the stored `total` equals the
value computed at creation time from the items (sum of unit price times
quantity). `create_order` (source line 262) copies the client-supplied
`total` field of the request verbatim and never recomputes it: a request
carrying one item priced 10 with quantity 2 but `total = 100` is stored
with total 100, not 20. -/
theorem C3_counterexample :
    (create_order (fun _ => none) [] "o1" 0 "u1"
        { items := [{ product_id := "p1", name := "Widget",
                      price := 10, quantity := 2 }],
          total := 100 }).2.total ≠
      spec_items_total
        [{ product_id := "p1", name := "Widget", price := 10, quantity := 2 }] := by
  norm_num [create_order, spec_items_total]

/-- C3, amended: the stored `total` equals the `total` field the client
supplied in the request (not a value recomputed from `items`), and it is
never mutated afterwards: whatever events run — processor transitions,
cancellation, administrative overrides, deletion — while the order is
still present its `total` is the request's `total`. -/
theorem C3_total_copied_and_immutable (jwtSub : String → Option String)
    (db0 : OrdersDb) (oid : String) (now : Nat) (uid : String)
    (req : OrderCreate) (evs : List Ev) :
    (create_order jwtSub db0 oid now uid req).2.total = req.total ∧
    ∀ o, dbGet (runEv oid (initSys jwtSub db0 oid now uid req) evs).db oid =
        some o → o.total = req.total := by
  refine ⟨rfl, runEv_total oid _ evs req.total ?_⟩
  intro o ho
  rw [initSys] at ho
  simp only [create_order, dbGet_dbSet_self] at ho
  cases Option.some.inj ho
  rfl

/-- C3 witness: after the first processor transition, the tracked
order's stored record still carries the request's total 5. -/
theorem C3_total_copied_and_immutable_witness :
    (create_order (fun _ => none) [] "o1" 0 "u1"
        { items := [], total := 5 }).2.total = 5 ∧
    ({ id := "o1", user_id := "u1", items := [], total := 5,
       status := "PROCESSING", created_at := 0, updated_at := 1 } : Order).total = 5 :=
  ⟨(C3_total_copied_and_immutable (fun _ => none) [] "o1" 0 "u1"
      { items := [], total := 5 } [.proc1 1]).1,
   (C3_total_copied_and_immutable (fun _ => none) [] "o1" 0 "u1"
      { items := [], total := 5 } [.proc1 1]).2
     { id := "o1", user_id := "u1", items := [], total := 5,
       status := "PROCESSING", created_at := 0, updated_at := 1 } (by decide)⟩

/-- C4: once the tracked order's status is `CANCELLED`, and no
administrative `SetStatus` override runs, no later event — any
interleaving of the remaining processor blocks, the deferred deletion,
and further cancel attempts, at any clock values — ever moves the status
away from `CANCELLED`, removes the order, or fires another notification:
each processor block's guard (`order["status"] != "CANCELLED"`) fails, a
deferred deletion is never scheduled without a `DELIVERED` write, and a
second cancel raises before mutating. -/
theorem C4_cancelled_is_terminal (jwtSub : String → Option String)
    (db0 : OrdersDb) (oid : String) (now : Nat) (uid : String)
    (req : OrderCreate) (evs1 evs2 : List Ev)
    (h1 : ∀ e ∈ evs1, e.isSetStatus = false)
    (h2 : ∀ e ∈ evs2, e.isSetStatus = false)
    (hc : trackedStatus oid
        (runEv oid (initSys jwtSub db0 oid now uid req) evs1) =
      some "CANCELLED") :
    trackedStatus oid
        (runEv oid (runEv oid (initSys jwtSub db0 oid now uid req) evs1) evs2) =
      some "CANCELLED" ∧
    (runEv oid (runEv oid (initSys jwtSub db0 oid now uid req) evs1) evs2).notified =
      (runEv oid (initSys jwtSub db0 oid now uid req) evs1).notified :=
  runEv_cancelled oid _ evs2
    (Inv_runEv oid _ evs1 (Inv_init jwtSub db0 oid now uid req) h1) hc h2

/-- C4 witness: cancel immediately after creation, then let every
processor block and the deletion attempt run — the status stays
`CANCELLED` and the notification log still holds only the `CANCELLED`
notification. -/
theorem C4_cancelled_is_terminal_witness :
    trackedStatus "o1"
        (runEv "o1"
          (runEv "o1" (initSys (fun _ => none) [] "o1" 0 "u1"
            { items := [], total := 5 }) [.cancel "u1" false 1])
          [.proc1 2, .proc2 3, .proc3 4, .del, .cancel "u1" false 5]) =
      some "CANCELLED" ∧
    (runEv "o1"
        (runEv "o1" (initSys (fun _ => none) [] "o1" 0 "u1"
          { items := [], total := 5 }) [.cancel "u1" false 1])
        [.proc1 2, .proc2 3, .proc3 4, .del, .cancel "u1" false 5]).notified =
      (runEv "o1" (initSys (fun _ => none) [] "o1" 0 "u1"
        { items := [], total := 5 }) [.cancel "u1" false 1]).notified :=
  C4_cancelled_is_terminal (fun _ => none) [] "o1" 0 "u1"
    { items := [], total := 5 } [.cancel "u1" false 1]
    [.proc1 2, .proc2 3, .proc3 4, .del, .cancel "u1" false 5]
    (by decide) (by decide) (by decide)

/-- C5: on the automatic path — any interleaving of the processor
blocks, the deferred deletion and cancel calls, with no administrative
`SetStatus` override — every single event moves the tracked order's
stored status along the state graph: it stays put, advances one step
along CREATED → PROCESSING → SHIPPING → DELIVERED, jumps to `CANCELLED`
from one of the three non-terminal states, or disappears from the store
after `DELIVERED`; no state is ever skipped or reversed. -/
theorem C5_automatic_path_monotone (jwtSub : String → Option String)
    (db0 : OrdersDb) (oid : String) (now : Nat) (uid : String)
    (req : OrderCreate) (evs : List Ev) (e : Ev)
    (h1 : ∀ e' ∈ evs, e'.isSetStatus = false)
    (h2 : e.isSetStatus = false) :
    NextOK
      (trackedStatus oid (runEv oid (initSys jwtSub db0 oid now uid req) evs))
      (trackedStatus oid
        (stepEv oid (runEv oid (initSys jwtSub db0 oid now uid req) evs) e)) :=
  stepEv_NextOK oid _ e
    (Inv_runEv oid _ evs (Inv_init jwtSub db0 oid now uid req) h1) h2

/-- C5 witness: after the first processor block the status is
`PROCESSING`, and the second block is a legal single step (to
`SHIPPING`). -/
theorem C5_automatic_path_monotone_witness :
    NextOK
      (trackedStatus "o1" (runEv "o1" (initSys (fun _ => none) [] "o1" 0 "u1"
        { items := [], total := 5 }) [.proc1 1]))
      (trackedStatus "o1"
        (stepEv "o1" (runEv "o1" (initSys (fun _ => none) [] "o1" 0 "u1"
          { items := [], total := 5 }) [.proc1 1]) (.proc2 2))) :=
  C5_automatic_path_monotone (fun _ => none) [] "o1" 0 "u1"
    { items := [], total := 5 } [.proc1 1] (.proc2 2) (by decide) (by decide)

/-- C6: for an existing order and a requester that is the owner or an
administrator, `cancel_order` raises 400 with a message naming the
current status exactly when the status is `DELIVERED` or `CANCELLED`
(the handler raises before any mutation, so the store passed in is
untouched on that path — in particular a second cancel of an
already-cancelled order gets this 400); in every other status it
succeeds, rewriting the stored order with status `CANCELLED` and a fresh
`updated_at` and leaving all other fields intact. -/
theorem C6_cancel_iff_not_terminal (db : OrdersDb) (oid uid : String)
    (adm : Bool) (now : Nat) (o : Order) (ho : dbGet db oid = some o)
    (hown : o.user_id = uid ∨ adm = true) :
    (o.status = "DELIVERED" ∨ o.status = "CANCELLED" →
      cancel_order db oid uid adm now =
        .error ⟨400, "Cannot cancel order with status " ++ o.status⟩) ∧
    (¬(o.status = "DELIVERED" ∨ o.status = "CANCELLED") →
      cancel_order db oid uid adm now =
        .ok (dbSet db oid { o with status := "CANCELLED", updated_at := now },
             { o with status := "CANCELLED", updated_at := now })) := by
  have hd : ¬(o.user_id ≠ uid ∧ adm = false) := by
    rcases hown with h | h
    · exact fun hc => hc.1 h
    · exact fun hc => by rw [h] at hc; exact absurd hc.2 (by decide)
  exact ⟨fun ht => cancel_order_terminal uid adm now ho hd ht,
         fun ht => cancel_order_ok uid adm now ho hd ht⟩

/-- C6 witness: the owner cancelling an already-cancelled order receives
the 400 naming the current status `CANCELLED`. -/
theorem C6_cancel_iff_not_terminal_witness :
    cancel_order [("o1", cancelledOrder)] "o1" "u1" false 9 =
      .error ⟨400, "Cannot cancel order with status " ++ "CANCELLED"⟩ :=
  (C6_cancel_iff_not_terminal [("o1", cancelledOrder)] "o1" "u1" false 9
      cancelledOrder (by decide) (Or.inl rfl)).1 (Or.inr rfl)

/-- C7: starting from the empty store, any sequence of handler calls and
processor blocks — creations, processor transitions (which only ever
write the literals `PROCESSING`, `SHIPPING`, `DELIVERED`), cancellations
(which write `CANCELLED`), administrative overrides (which reject any
value outside `ORDER_STATUSES` with the 400 `InvalidStatus` response),
and deletions — leaves every stored order's status among the five
recognised values. -/
theorem C7_status_always_recognised (evs : List GEv) (p : String × Order)
    (hp : p ∈ runGEv [] evs) : p.2.status ∈ ORDER_STATUS_KEYS :=
  recognizedDb_runGEv [] evs (fun q hq => absurd hq (List.not_mem_nil q)) p hp

/-- C7 witness: after a creation, a processor transition and an
administrative override on one order, its stored status is among the
five recognised values. -/
theorem C7_status_always_recognised_witness :
    (("o1", ({ id := "o1", user_id := "u1", items := [], total := 5,
               status := "SHIPPING", created_at := 0,
               updated_at := 3 } : Order)) : String × Order).2.status ∈
      ORDER_STATUS_KEYS :=
  C7_status_always_recognised
    [.create (fun _ => none) "o1" 0 "u1" { items := [], total := 5 },
     .procTrans "o1" "PROCESSING" 2,
     .setStatus "o1" "SHIPPING" true 3]
    ("o1", { id := "o1", user_id := "u1", items := [], total := 5,
             status := "SHIPPING", created_at := 0, updated_at := 3 })
    (by decide)

/-- C8: both `get_order` and `cancel_order` test membership of the id in
the store before anything else, so an absent id yields the 404 for every
requester — admin or not, owner or not — and the 403 can only arise for
an order that exists, is owned by somebody else, and is requested
without the admin flag. -/
theorem C8_not_found_before_forbidden (db : OrdersDb) (oid uid : String)
    (adm : Bool) (now : Nat) :
    (dbGet db oid = none →
      get_order db oid uid adm = .error ⟨404, "Order not found"⟩ ∧
      cancel_order db oid uid adm now = .error ⟨404, "Order not found"⟩) ∧
    (get_order db oid uid adm = .error ⟨403, "Access denied"⟩ →
      ∃ o, dbGet db oid = some o ∧ o.user_id ≠ uid ∧ adm = false) ∧
    (cancel_order db oid uid adm now = .error ⟨403, "Access denied"⟩ →
      ∃ o, dbGet db oid = some o ∧ o.user_id ≠ uid ∧ adm = false) := by
  refine ⟨fun hn => ⟨by simp [get_order, hn],
    cancel_order_absent uid adm now hn⟩, ?_, ?_⟩
  · intro h
    cases ho : dbGet db oid with
    | none => simp [get_order, ho] at h
    | some o =>
      by_cases hd : o.user_id ≠ uid ∧ adm = false
      · exact ⟨o, rfl, hd.1, hd.2⟩
      · simp [get_order, ho, hd] at h
  · intro h
    cases ho : dbGet db oid with
    | none => rw [cancel_order_absent uid adm now ho] at h; simp at h
    | some o =>
      by_cases hd : o.user_id ≠ uid ∧ adm = false
      · exact ⟨o, rfl, hd.1, hd.2⟩
      · by_cases ht : o.status = "DELIVERED" ∨ o.status = "CANCELLED"
        · rw [cancel_order_terminal uid adm now ho hd ht] at h; simp at h
        · rw [cancel_order_ok uid adm now ho hd ht] at h; simp at h

/-- C8 witness: on the empty store a non-admin gets the 404, and the 403
received for `o2` (owned by `u2`) by requester `u1` indeed comes with
the order existing, foreign-owned, and the admin flag off. -/
theorem C8_not_found_before_forbidden_witness :
    get_order ([] : OrdersDb) "o1" "u1" false = .error ⟨404, "Order not found"⟩ ∧
    (∃ o, dbGet [("o2", otherOrder)] "o2" = some o ∧ o.user_id ≠ "u1" ∧
      false = false) :=
  ⟨((C8_not_found_before_forbidden [] "o1" "u1" false 0).1 rfl).1,
   (C8_not_found_before_forbidden [("o2", otherOrder)] "o2" "u1" false 0).2.1
     (by decide)⟩

/-- C9, counterexample. The claim says that whenever the resolved
identity has exactly two dots and decodes as a valid JWT with a `sub`
claim, the recorded `user_id` is that subject. The code's guard is
Python's truthiness test `if username:`, so a valid token whose `sub`
claim is the empty string — which `jwt.encode` happily produces — is NOT
used: the raw credential is recorded instead of the (empty) subject. -/
theorem C9_counterexample :
    strCount "a.b.c" '.' = 2 ∧
    jwtSubEmptySub "a.b.c" = some "" ∧
    (create_order jwtSubEmptySub [] "o1" 0 "a.b.c"
        { items := [], total := 5 }).2.user_id = "a.b.c" ∧
    (create_order jwtSubEmptySub [] "o1" 0 "a.b.c"
        { items := [], total := 5 }).2.user_id ≠ "" :=
  ⟨by decide, by decide, by decide, by decide⟩

/-- C9, amended: in `create_order` only, an identity with exactly two
dots that decodes as a JWT with a NON-EMPTY `sub` claim is replaced by
that subject in the stored `user_id`; all other operations compare
ownership against the resolved identity string itself, so when the
subject differs from the raw credential, a `get_order` by the raw
credential (without the admin flag) on the freshly created order is
denied with the 403. -/
theorem C9_jwt_subject_only_in_create (jwtSub : String → Option String)
    (db : OrdersDb) (oid : String) (now : Nat) (uid s : String)
    (req : OrderCreate) (hdots : strCount uid '.' = 2)
    (hsub : jwtSub uid = some s) (hne : ¬s.isEmpty) (hraw : s ≠ uid) :
    (create_order jwtSub db oid now uid req).2.user_id = s ∧
    get_order (create_order jwtSub db oid now uid req).1 oid uid false =
      .error ⟨403, "Access denied"⟩ := by
  have huid : create_order_user_id jwtSub uid = s := by
    simp [create_order_user_id, hdots, hsub, hne]
  refine ⟨by simp [create_order, huid], ?_⟩
  simp [get_order, create_order, dbGet_dbSet_self, huid, hraw]

/-- C9 witness: the credential `a.b.c` with subject `alice` creates an
order owned by `alice`, and a read by the raw credential `a.b.c` is
denied. -/
theorem C9_jwt_subject_only_in_create_witness :
    (create_order jwtSubAlice [] "o1" 0 "a.b.c"
        { items := [], total := 5 }).2.user_id = "alice" ∧
    get_order (create_order jwtSubAlice [] "o1" 0 "a.b.c"
        { items := [], total := 5 }).1 "o1" "a.b.c" false =
      .error ⟨403, "Access denied"⟩ :=
  C9_jwt_subject_only_in_create jwtSubAlice [] "o1" 0 "a.b.c" "alice"
    { items := [], total := 5 } (by decide) (by decide) (by decide) (by decide)

/-- C10, counterexample. The claim says every request carrying an
`X-User-ID` header gets that header back verbatim, with precedence over
`Authorization`. The code's test is Python's truthiness `if x_user_id:`,
so a present-but-EMPTY `X-User-ID` header is ignored and the valid
bearer token in `Authorization` wins: the resolved identity is the
token's subject, not the empty header value. -/
theorem C10_counterexample :
    get_user_id jwtSubTok (some "Bearer tok") (some "") = .ok "tok-subject" ∧
    get_user_id jwtSubTok (some "Bearer tok") (some "") ≠ .ok "" :=
  ⟨by decide, by decide⟩

/-- C10, amended: every request carrying a NON-EMPTY `X-User-ID` header
resolves to that header value verbatim, with no validation, regardless
of any `Authorization` header — valid bearer token or not; an empty
`X-User-ID` header falls through to the `Authorization` path. -/
theorem C10_x_user_id_precedence (jwtSub : String → Option String)
    (authorization : Option String) (x : String) (hx : ¬x.isEmpty) :
    get_user_id jwtSub authorization (some x) = .ok x := by
  simp [get_user_id, hx]

/-- C10 witness: `X-User-ID: bob` wins over a valid bearer token. -/
theorem C10_x_user_id_precedence_witness :
    get_user_id jwtSubTok (some "Bearer tok") (some "bob") = .ok "bob" :=
  C10_x_user_id_precedence jwtSubTok (some "Bearer tok") "bob" (by decide)

end OrderService
